import Mathlib

/-!
Verification of the nowcast normalization pipeline (parse_crawl.py).

Modelling conventions (shallow embedding of the Python source):

* A UTC instant or a local wall-clock time is an integer number of seconds
  since a fixed epoch (plain `Int`).  Python `datetime` arithmetic,
  `replace`, and component extraction all follow floor conventions, which is
  exactly `Int.ediv` / `Int.emod`.
* A timezone (a `pytz` timezone object in the source) is modelled by its
  fixed UTC offset in minutes; `astimezone` adds the offset.  (DST
  transitions are not modelled; all claims concern fixed-offset behaviour.)
* `strftime('%Y-%m-%d %H:%M')` truncates a wall-clock time to whole minutes;
  within the representable calendar range two times format to the same string
  iff they lie in the same minute, so a formatted time is modelled by the
  wall-clock minute number (`FmtTime.time`), with extra constructors for the
  empty-string fallback and for a raw string copied from the input.
* `datetime.fromisoformat(scrape_time)` wrapped in try/except is modelled by
  an `Option Int` input field (`none` = missing or unparseable
  scrape_time).
* `re.finditer(time_range_pattern, div2_text, re.IGNORECASE)` is modelled by
  an oracle parameter `findRanges : String → List TimeMatch` returning the
  numbered capture groups of each match of the pattern
  "from H:MM AM/PM [to|continuing beyond] [H:MM AM/PM]" in order; the regex
  engine itself is not embedded.  Everything downstream of the capture
  groups is embedded from the source.
* Python `float(str)` on bar heights is modelled by `parseFloat`, a faithful
  parser for the plain decimal subset (optional sign, digits, optional
  fractional part, surrounding whitespace); exponents/inf/nan do not occur
  in the scraped data and are not modelled.
-/

namespace Nowcast


/-- The minute component of a wall-clock time, `dt.minute` in Python. -/
def minuteOf (t : Int) : Int := (t / 60) % 60

/-- Source lines 72-74 / 191-198: `if dt.minute % 2 == 1: dt -= timedelta(minutes=1)`. -/
def alignEven (t : Int) : Int :=
  if (minuteOf t) % 2 = 1 then t - 60 else t

/-- Source line 247 / 252: `.replace(minute=0, second=0, microsecond=0)`. -/
def floorHour (t : Int) : Int := (t / 3600) * 3600

/-- Source lines 144/150/162/168: `.replace(hour=h, minute=m, second=0, microsecond=0)`. -/
def replaceHM (t : Int) (h m : Int) : Int :=
  (t / 86400) * 86400 + h * 3600 + m * 60

/-- `astimezone(local_tz)` for a timezone of fixed offset `off` minutes. -/
def toLocal (off : Int) (t : Int) : Int := t + 60 * off

/-- `astimezone(pytz.UTC)` applied to a local wall-clock time. -/
def toUTC (off : Int) (t : Int) : Int := t - 60 * off

/-- The value of a `strftime('%Y-%m-%d %H:%M')` call: `empty` is the `''`
fallback for an unparseable scrape_time, `raw s` is a string copied verbatim
from the input (`point.get('time', '')`), and `time m` is the formatted form
of the wall-clock time whose minute number since the epoch is `m`. -/
inductive FmtTime where
  | empty : FmtTime
  | raw (s : String) : FmtTime
  | time (minutes : Int) : FmtTime
deriving DecidableEq

/-- Format a wall-clock time with `strftime('%Y-%m-%d %H:%M')`. -/
def fmtHM (t : Int) : FmtTime := .time (t / 60)

/-- The minute component shown in a formatted time (−1 for the non-time forms). -/
def fmtMinuteOf : FmtTime → Int
  | .time m => m % 60
  | _ => -1

/-! ### String helpers (Python `lower`, `strip`, `split(',')`, `in`) -/

/-- Python `str.lower()` on the ASCII texts involved. -/
def lowerL (cs : List Char) : List Char := cs.map Char.toLower

/-- Does the second list start with the first? -/
def startsL : List Char → List Char → Bool
  | [], _ => true
  | _ :: _, [] => false
  | a :: as, b :: bs => a = b && startsL as bs

/-- Python substring test `needle in hay`. -/
def containsL (needle : List Char) : List Char → Bool
  | [] => startsL needle []
  | c :: cs => startsL needle (c :: cs) || containsL needle cs

/-- Python `str.strip()`. -/
def stripL (cs : List Char) : List Char :=
  ((cs.dropWhile Char.isWhitespace).reverse.dropWhile Char.isWhitespace).reverse

/-- Python `str.split(',')`: split on every comma, keeping empty pieces;
the result is never the empty list. -/
def splitComma : List Char → List (List Char)
  | [] => [[]]
  | c :: cs =>
    match splitComma cs with
    | [] => [[]]
    | h :: t => if c = ',' then [] :: h :: t else (c :: h) :: t

/-- Source lines 111 / 260: the precipitation keyword set. -/
def precipKeywords : List (List Char) :=
  ["rain".data, "shower".data, "thunderstorm".data, "drizzle".data,
   "precipitation".data, "wet".data, "sleet".data, "snow".data]

/-- `any(keyword in text for keyword in precip_keywords)` on lowercased text. -/
def hasKeyword (text : List Char) : Bool :=
  precipKeywords.any (fun k => containsL k text)

/-! ### Python float() on bar heights -/

/-- Value of a list of decimal digit characters. -/
def digitsVal (ds : List Char) : Nat :=
  ds.foldl (fun a c => 10 * a + (c.toNat - 48)) 0

/-- Models Python `float(s)` (source line 88) on the plain decimal subset:
optional surrounding whitespace, optional sign, digits with an optional
single decimal point, at least one digit; `none` for anything else. -/
def parseFloat (s : String) : Option ℚ :=
  let cs := stripL s.data
  let sc : ℚ × List Char :=
    match cs with
    | '+' :: t => (1, t)
    | '-' :: t => (-1, t)
    | t => (1, t)
  let ip := sc.2.takeWhile Char.isDigit
  let rest := sc.2.dropWhile Char.isDigit
  match rest with
  | [] => if ip.isEmpty then none else some (sc.1 * (digitsVal ip : ℚ))
  | '.' :: t =>
    let fp := t.takeWhile Char.isDigit
    let rest2 := t.dropWhile Char.isDigit
    if rest2.isEmpty && !(ip.isEmpty && fp.isEmpty) then
      some (sc.1 * ((digitsVal ip : ℚ) + (digitsVal fp : ℚ) / (10 : ℚ) ^ fp.length))
    else none
  | _ => none

/-- Source lines 86-91: parse the height string, `precip = 1 if height_val > 0
else 0`, with any parse failure recovered as `precip = 0`. -/
def heightPrecip (hs : String) : Int :=
  match parseFloat hs with
  | some v => if 0 < v then 1 else 0
  | none => 0

/-! ### Data model of the per-scrape JSON artifact -/

/-- One element of the `points` array of a bar-chart artifact.  The fields
not read by the normalizer (`fill`, `x`, `y`, `width`) are omitted; the read
fields are `Option`s because the source accesses them with `.get` defaults
(`minute_index` default 0, `time` default empty string, `height` default
"0"). -/
structure PointRow where
  minute_index : Option Int
  ptime : Option String
  height : Option String
deriving DecidableEq

/-- The `fallback_data` object: the short (`div1_text`) and long
(`div2_text`) free-text blocks. -/
structure FallbackData where
  div1_text : String
  div2_text : String
deriving DecidableEq

/-- AM/PM marker captured by the time-range regex. -/
inductive Meridiem where
  | am : Meridiem
  | pm : Meridiem
deriving DecidableEq

/-- The numbered capture groups of one match of the time-range pattern
"from H:MM AM/PM [to|continuing beyond] [H:MM AM/PM]" (source line 116):
start hour/minute/meridiem, and the optional end clock time (`none` when
the trailing clock time is absent, i.e. a bare "continuing beyond"). -/
structure TimeMatch where
  sh : Int
  sm : Int
  sap : Meridiem
  endTime : Option (Int × Int × Meridiem)
deriving DecidableEq

/-- The JSON artifact consumed by `parse_nowcast_data`, with the
scrape-time ISO parse already abstracted to `scrapeO` (see the header
comment).  A JSON `points` value that is absent or null is modelled as the
empty list (both are falsy, like `[]`, under `data.get('points')`);
`fallback_data` present is modelled as `some` (the artifact writer always
stores a non-empty, hence truthy, object there). -/
structure NowcastInput where
  city : String
  city_id : String
  dtype : Option String
  scrapeO : Option Int
  points : List PointRow
  fallback : Option FallbackData
  hourly_data : Option (List String)
  message : Option String
deriving DecidableEq

/-- One row of the output table. `leadtime` is the number recorded in the
`leadtime` column: minutes for the bar-chart and free-text series, hours for
the hourly series (source line 269, "Keep in hours"). -/
structure NormalizedRecord where
  city : String
  city_id : String
  rtype : String
  scrape_time : FmtTime
  valid_time : FmtTime
  leadtime : Int
  precip : Int
deriving DecidableEq

/-- Source lines 46-58: the formatted scrape time, empty if the ISO parse
failed, local if a timezone is known. -/
def scrapeFmt (offO : Option Int) : Option Int → FmtTime
  | none => .empty
  | some s =>
    match offO with
    | some off => fmtHM (toLocal off s)
    | none => fmtHM s

/-! ### BarChart branch (source lines 64-101) -/

/-- Source lines 65-101: the record emitted for one bar-chart point. -/
def pointRecord (offO : Option Int) (scrapeO : Option Int) (stf : FmtTime)
    (city cid : String) (p : PointRow) : NormalizedRecord :=
  let leadtime := (p.minute_index.getD 0) * 2
  let valid :=
    match scrapeO with
    | some s =>
      let v := alignEven (s + 60 * leadtime)
      match offO with
      | some off => fmtHM (toLocal off v)
      | none => fmtHM v
    | none => .raw (p.ptime.getD "")
  { city := city, city_id := cid, rtype := "nowcast", scrape_time := stf,
    valid_time := valid, leadtime := leadtime,
    precip := heightPrecip (p.height.getD "0") }

/-! ### FreeText branch (source lines 104-222) -/

/-- Source lines 131-139: resolve a 12-hour clock hour and AM/PM marker to a
24-hour clock hour. -/
def hour24 (h : Int) (ap : Meridiem) : Int :=
  match ap with
  | .pm => if h = 12 then h else h + 12
  | .am => if h = 12 then 0 else h

/-- Source lines 141-176: build the PrecipPeriod (start, end), as UTC
instants, for one time-range match: anchor the clock times on the scrape
date (local if a timezone is known, else UTC), substitute start + 6 hours
when no end clock time was given, and roll forward by one day as needed. -/
def mkPeriod (offO : Option Int) (scrape : Int) (m : TimeMatch) :
    Int × Int :=
  match offO with
  | some off =>
    let scrapeLocal := toLocal off scrape
    let startLocal := replaceHM scrapeLocal (hour24 m.sh m.sap) m.sm
    let endLocal0 :=
      match m.endTime with
      | none => startLocal + 6 * 3600
      | some e => replaceHM scrapeLocal (hour24 e.1 e.2.2) e.2.1
    let startLocal1 := if startLocal < scrapeLocal then startLocal + 86400 else startLocal
    let endLocal1 := if endLocal0 < scrapeLocal then endLocal0 + 86400 else endLocal0
    let endLocal2 := if endLocal1 < startLocal1 then endLocal1 + 86400 else endLocal1
    (toUTC off startLocal1, toUTC off endLocal2)
  | none =>
    let startDt := replaceHM scrape (hour24 m.sh m.sap) m.sm
    let endDt0 :=
      match m.endTime with
      | none => startDt + 6 * 3600
      | some e => replaceHM scrape (hour24 e.1 e.2.2) e.2.1
    let startDt1 := if startDt < scrape then startDt + 86400 else startDt
    let endDt1 := if endDt0 < scrape then endDt0 + 86400 else endDt0
    let endDt2 := if endDt1 < startDt1 then endDt1 + 86400 else endDt1
    (startDt1, endDt2)

/-- Source line 179: `max_end = max(p[1] for p in precip_periods)`. -/
def maxEndOf (ps : List (Int × Int)) : Int :=
  match ps with
  | [] => 0
  | p :: t => t.foldl (fun a q => max a q.2) p.2

/-- Source lines 183-187: does the cursor fall (inclusively) inside some
precipitation period? -/
def inAnyPeriod (periods : List (Int × Int)) (c : Int) : Bool :=
  periods.any (fun p => decide (p.1 ≤ c ∧ c ≤ p.2))

/-- Source lines 182-209: the record emitted at one cursor position of the
dense 2-minute walk. -/
def cursorRecord (offO : Option Int) (stf : FmtTime) (city cid : String)
    (periods : List (Int × Int)) (scrape c : Int) :
    NormalizedRecord :=
  let leadtime := (c - scrape) / 60
  let valid :=
    match offO with
    | some off => fmtHM (alignEven (toLocal off c))
    | none => fmtHM (alignEven c)
  { city := city, city_id := cid, rtype := "nowcast", scrape_time := stf,
    valid_time := valid, leadtime := leadtime,
    precip := if inAnyPeriod periods c then 1 else 0 }

/-- Source lines 180-211: `while current_dt <= max_end: emit; current += 2min`. -/
def walkFrom (offO : Option Int) (stf : FmtTime) (city cid : String)
    (periods : List (Int × Int)) (scrape maxEnd c : Int) :
    List NormalizedRecord :=
  if h : c ≤ maxEnd then
    cursorRecord offO stf city cid periods scrape c ::
      walkFrom offO stf city cid periods scrape maxEnd (c + 120)
  else []
termination_by (maxEnd + 120 - c).toNat
decreasing_by simp_wf; omega

/-- The lowercased combined text `f"{div1_text} {div2_text}".lower()`
(source line 108). -/
def combinedText (fb : FallbackData) : List Char :=
  lowerL (fb.div1_text.data ++ ' ' :: fb.div2_text.data)

/-- Source lines 104-222: the FreeText (fallback_data) branch.  `findRanges`
is the regex oracle (see header). -/
def fallbackRecords (offO : Option Int) (findRanges : String → List TimeMatch)
    (scrapeO : Option Int) (stf : FmtTime) (city cid : String)
    (fb : FallbackData) : List NormalizedRecord :=
  match scrapeO with
  | none => []
  | some s =>
    if hasKeyword (combinedText fb) then
      let periods := (findRanges fb.div2_text).map (mkPeriod offO s)
      match periods with
      | [] =>
        [{ city := city, city_id := cid, rtype := "nowcast",
           scrape_time := stf, valid_time := stf, leadtime := 0, precip := 1 }]
      | _ :: _ => walkFrom offO stf city cid periods s (maxEndOf periods) s
    else []

/-! ### HourlyList branch (source lines 225-271) -/

/-- Source lines 229-271: the record emitted for the hourly entry at 0-based
index `idx` (the body after the dead `if not parts: continue` guard). -/
def hourlyRecordCore (offO : Option Int) (scrapeO : Option Int)
    (stf : FmtTime) (city cid : String) (idx : Nat) (s : String) :
    NormalizedRecord :=
  let parts := splitComma s.data
  let weatherDesc := if 2 < parts.length then stripL (parts.getD 2 []) else []
  let leadtimeHours : Int := (idx : Int)
  let valid :=
    match scrapeO with
    | some sc =>
      let v := floorHour (sc + 3600 * leadtimeHours)
      match offO with
      | some off => fmtHM (floorHour (toLocal off v))
      | none => fmtHM v
    | none => .empty
  { city := city, city_id := cid, rtype := "hourly", scrape_time := stf,
    valid_time := valid, leadtime := leadtimeHours,
    precip := if hasKeyword (lowerL weatherDesc) then 1 else 0 }

/-- Source lines 230-233: `parts = hourly_str.split(','); if not parts:
continue` — the skip branch is vacuous since `split` never returns an
empty list, but it is kept for fidelity. -/
def hourlyRecord (offO : Option Int) (scrapeO : Option Int)
    (stf : FmtTime) (city cid : String) (idx : Nat) (s : String) :
    Option NormalizedRecord :=
  if splitComma s.data = [] then none
  else some (hourlyRecordCore offO scrapeO stf city cid idx s)

/-- Source line 229: `for idx, hourly_str in enumerate(data['hourly_data'])`. -/
def hourlyLoop (offO : Option Int) (scrapeO : Option Int) (stf : FmtTime)
    (city cid : String) : Nat → List String → List NormalizedRecord
  | _, [] => []
  | idx, s :: rest =>
    match hourlyRecord offO scrapeO stf city cid idx s with
    | some r => r :: hourlyLoop offO scrapeO stf city cid (idx + 1) rest
    | none => hourlyLoop offO scrapeO stf city cid (idx + 1) rest

/-! ### The normalizer entry point -/

/-- Source lines 23-278: `parse_nowcast_data`.  `tzMap` combines the
`tz_map` lookup and the `pytz.timezone` try/except (source lines 38-44):
it maps a city_id to the station offset in minutes, `none` when the
timezone is unknown or unparseable. -/
def parse_nowcast_data (tzMap : String → Option Int)
    (findRanges : String → List TimeMatch) (inp : NowcastInput) :
    List NormalizedRecord :=
  match inp.dtype with
  | none => []
  | some dt =>
    let offO := tzMap inp.city_id
    let stf := scrapeFmt offO inp.scrapeO
    if dt = "nowcast" ∧ inp.points ≠ [] then
      inp.points.map (pointRecord offO inp.scrapeO stf inp.city inp.city_id)
    else if dt = "nowcast" ∧ inp.fallback ≠ none then
      fallbackRecords offO findRanges inp.scrapeO stf inp.city inp.city_id
        (inp.fallback.getD { div1_text := "", div2_text := "" })
    else if dt = "hourly" ∧ inp.hourly_data.getD [] ≠ [] then
      hourlyLoop offO inp.scrapeO stf inp.city inp.city_id 0
        (inp.hourly_data.getD [])
    else []

/-! ### Batch merger (source lines 280-318) -/

/-- One artifact file of the input directory: its file name and the result
of `json.load` + `parse_nowcast_data`'s field reads — `none` models any
exception raised for that file (malformed JSON, missing fields), which the
merger catches per file (source lines 296-302). -/
structure FileEntry where
  name : String
  content : Option NowcastInput
deriving DecidableEq

/-- The outcome of the batch run: all accumulated records, the number of
files skipped with an error report, and the written table (`none` when the
"No data found to save" path is taken instead of writing, source lines
304-318). -/
structure BatchResult where
  records : List NormalizedRecord
  skipped : Nat
  output : Option (List NormalizedRecord)
  noData : Bool
deriving DecidableEq

/-- Insert into a name-sorted list, keeping earlier files first on ties
(Python `sorted` is stable). -/
def insertByName (f : FileEntry) : List FileEntry → List FileEntry
  | [] => [f]
  | g :: gs => if g.name < f.name then g :: insertByName f gs else f :: g :: gs

/-- Source line 292: `sorted(input_path.glob('nowcast_*.json'))` — process
the files in file-name sort order. -/
def sortByName (fs : List FileEntry) : List FileEntry :=
  fs.foldr insertByName []

/-- Source lines 296-302: the per-file loop — parse each file, extend the
result list, and on an exception report the error and continue. Returns the
accumulated records and the number of skipped files. -/
def batchLoop (tzMap : String → Option Int)
    (findRanges : String → List TimeMatch) :
    List FileEntry → List NormalizedRecord × Nat
  | [] => ([], 0)
  | f :: rest =>
    let tail := batchLoop tzMap findRanges rest
    match f.content with
    | some inp => (parse_nowcast_data tzMap findRanges inp ++ tail.1, tail.2)
    | none => (tail.1, tail.2 + 1)

/-- Source lines 280-318: `parse_all_jsons_to_csv`, with file I/O abstracted
to the `FileEntry` list (one entry per matching file in the directory). -/
def parse_all_jsons_to_csv (tzMap : String → Option Int)
    (findRanges : String → List TimeMatch) (fs : List FileEntry) :
    BatchResult :=
  let sorted := sortByName fs
  let r := batchLoop tzMap findRanges sorted
  { records := r.1, skipped := r.2,
    output := if r.1.isEmpty then none else some r.1,
    noData := r.1.isEmpty }

/-! ### Derived definitions used in the statements -/

/-- The number of iterations of the dense-walk loop: one record per
2-minute step from `c` to `maxEnd` inclusive. -/
def numSteps (c maxEnd : Int) : Nat :=
  if c ≤ maxEnd then ((maxEnd - c) / 120).toNat + 1 else 0

/-- The records contributed by one artifact file (none for a skipped file). -/
def fileRecords (tzMap : String → Option Int)
    (findRanges : String → List TimeMatch) (f : FileEntry) :
    List NormalizedRecord :=
  match f.content with
  | some inp => parse_nowcast_data tzMap findRanges inp
  | none => []

/-! ### Concrete instances used by witnesses and counterexamples -/

/-- A station list with no usable timezone for any city. -/
def tzNoneMap : String → Option Int := fun _ => none

/-- Every city at fixed offset UTC+5:30 (330 minutes, e.g. Asia/Kolkata). -/
def tz330Map : String → Option Int := fun _ => some 330

/-- Every city at fixed offset UTC+5:45 (345 minutes, e.g. Asia/Kathmandu). -/
def tz345Map : String → Option Int := fun _ => some 345

/-- A regex oracle for texts containing no time-range pattern match. -/
def noRanges : String → List TimeMatch := fun _ => []

/-- Bar-chart artifact scraped at an instant with odd UTC minute
(epoch + 60 s, minute component 1). -/
def c1input : NowcastInput :=
  { city := "Kathmandu", city_id := "ktm", dtype := some "nowcast",
    scrapeO := some 60,
    points := [{ minute_index := some 0, ptime := some "", height := some "13" }],
    fallback := none, hourly_data := none, message := none }

/-- Bar-chart artifact with odd-minute scrape time, for the UTC+5:30 witness. -/
def c1winput : NowcastInput :=
  { city := "Mumbai", city_id := "bom", dtype := some "nowcast",
    scrapeO := some 60,
    points := [{ minute_index := some 0, ptime := some "", height := some "0" }],
    fallback := none, hourly_data := none, message := none }

/-- Hourly artifact whose second entry has fewer than 3 comma-separated parts. -/
def c2winput : NowcastInput :=
  { city := "c", city_id := "i", dtype := some "hourly", scrapeO := some 0,
    points := [], fallback := none,
    hourly_data := some ["Now,64,Cloudy", "6 PM"], message := none }

/-- FreeText artifact whose longer block is exactly one time-range phrase and
contains no precipitation keyword. -/
def c3input : NowcastInput :=
  { city := "X", city_id := "x", dtype := some "nowcast", scrapeO := some 0,
    points := [],
    fallback := some { div1_text := "", div2_text := "from 7:00 AM to 9:30 AM" },
    hourly_data := none, message := none }

/-- The capture groups `re.finditer` produces on the text of `c3input`:
one match, start 7:00 AM, end 9:30 AM. -/
def c3oracle : String → List TimeMatch := fun t =>
  if t = "from 7:00 AM to 9:30 AM" then
    [{ sh := 7, sm := 0, sap := .am, endTime := some (9, 30, .am) }]
  else []

/-- FreeText artifact with a precipitation keyword, for the C3 witness. -/
def c3winput : NowcastInput :=
  { city := "X", city_id := "x", dtype := some "nowcast", scrapeO := some 0,
    points := [],
    fallback := some { div1_text := "rain", div2_text := "w" },
    hourly_data := none, message := none }

/-- Oracle producing one short range (12:02 AM to 12:04 AM) for the C3 witness. -/
def c3woracle : String → List TimeMatch := fun _ =>
  [{ sh := 12, sm := 2, sap := .am, endTime := some (12, 4, .am) }]

/-- Hourly artifact with two entries, the second describing rain. -/
def c4winput : NowcastInput :=
  { city := "c", city_id := "i", dtype := some "hourly", scrapeO := some 0,
    points := [], fallback := none,
    hourly_data := some ["Now,64,Cloudy", "6 PM,63,Rain"], message := none }

/-- The record `parse_nowcast_data` emits for the first entry of `c4winput`. -/
def c4rec0 : NormalizedRecord :=
  { city := "c", city_id := "i", rtype := "hourly", scrape_time := .time 0,
    valid_time := .time 0, leadtime := 0, precip := 0 }

/-- The record `parse_nowcast_data` emits for the second entry of `c4winput`. -/
def c4rec1 : NormalizedRecord :=
  { city := "c", city_id := "i", rtype := "hourly", scrape_time := .time 0,
    valid_time := .time 60, leadtime := 1, precip := 1 }

/-- A time-range match with no explicit end clock time. -/
def c5match : TimeMatch := { sh := 12, sm := 0, sap := .am, endTime := none }

/-- FreeText artifact with a keyword and no pattern match in its text. -/
def c6winput : NowcastInput :=
  { city := "Y", city_id := "y", dtype := some "nowcast", scrapeO := some 0,
    points := [],
    fallback := some { div1_text := "Light rain", div2_text := "soon" },
    hourly_data := none, message := none }

/-- Bar-chart artifact with a numeric positive height. -/
def c7winput : NowcastInput :=
  { city := "Z", city_id := "z", dtype := some "nowcast", scrapeO := some 0,
    points := [{ minute_index := some 0, ptime := some "", height := some "2.5" }],
    fallback := none, hourly_data := none, message := none }

/-- A directory with one corrupt artifact among one valid artifact. -/
def c8files : List FileEntry :=
  [{ name := "nowcast_b.json", content := some c4winput },
   { name := "nowcast_a.json", content := none }]

/-- FreeText artifact with precipitation keywords but no parseable scrape
time. -/
def c10winput : NowcastInput :=
  { city := "W", city_id := "w", dtype := some "nowcast", scrapeO := none,
    points := [],
    fallback := some { div1_text := "Heavy rain", div2_text := "from 7:00 AM to 9:30 AM" },
    hourly_data := none, message := none }

/-! ### Supporting lemmas -/

theorem emod60_emod2 (x : Int) : (x % 60) % 2 = x % 2 :=
  Int.emod_emod_of_dvd x (by norm_num)

theorem minuteOf_alignEven_even (t : Int) : (minuteOf (alignEven t)) % 2 = 0 := by
  unfold alignEven minuteOf
  split <;> omega

theorem alignEven_add_120 (t : Int) : alignEven (t + 120) = alignEven t + 120 := by
  unfold alignEven minuteOf
  split <;> split <;> omega

theorem walkFrom_unfold (offO : Option Int) (stf : FmtTime) (city cid : String)
    (periods : List (Int × Int)) (scrape maxEnd c : Int) :
    walkFrom offO stf city cid periods scrape maxEnd c =
      if c ≤ maxEnd then
        cursorRecord offO stf city cid periods scrape c ::
          walkFrom offO stf city cid periods scrape maxEnd (c + 120)
      else [] := by
  rw [walkFrom]
  split <;> rfl

theorem walkFrom_length (offO : Option Int) (stf : FmtTime) (city cid : String)
    (periods : List (Int × Int)) (scrape maxEnd : Int) :
    ∀ (n : Nat) (c : Int), numSteps c maxEnd = n →
      (walkFrom offO stf city cid periods scrape maxEnd c).length = n := by
  intro n
  induction n with
  | zero =>
    intro c hc
    rw [walkFrom_unfold]
    unfold numSteps at hc
    split at hc
    · omega
    · simp [*]
  | succ m ih =>
    intro c hc
    rw [walkFrom_unfold]
    unfold numSteps at hc
    split at hc
    case isFalse h => omega
    case isTrue h =>
      rw [if_pos h]
      have hnext : numSteps (c + 120) maxEnd = m := by
        unfold numSteps
        split <;> omega
      simp [ih (c + 120) hnext]

theorem walkFrom_getElem (offO : Option Int) (stf : FmtTime) (city cid : String)
    (periods : List (Int × Int)) (scrape maxEnd : Int) :
    ∀ (n : Nat) (c : Int), numSteps c maxEnd = n →
      ∀ k : Nat, k < n →
        (walkFrom offO stf city cid periods scrape maxEnd c)[k]? =
          some (cursorRecord offO stf city cid periods scrape (c + 120 * k)) := by
  intro n
  induction n with
  | zero => intro c hc k hk; omega
  | succ m ih =>
    intro c hc k hk
    have hle : c ≤ maxEnd := by
      unfold numSteps at hc
      by_contra hcon
      rw [if_neg hcon] at hc
      omega
    rw [walkFrom_unfold, if_pos hle]
    have hnext : numSteps (c + 120) maxEnd = m := by
      unfold numSteps at hc ⊢
      rw [if_pos hle] at hc
      split <;> omega
    cases k with
    | zero => simp
    | succ k =>
      rw [List.getElem?_cons_succ, ih (c + 120) hnext k (by omega)]
      have : c + 120 + 120 * (k : Int) = c + 120 * ((k : Int) + 1) := by ring
      rw [this]
      norm_num

theorem splitComma_ne_nil (cs : List Char) : splitComma cs ≠ [] := by
  induction cs with
  | nil => simp [splitComma]
  | cons c cs ih =>
    unfold splitComma
    cases h : splitComma cs with
    | nil => exact absurd h ih
    | cons a b =>
      dsimp only
      split <;> simp

theorem hourlyRecord_eq (offO : Option Int) (scrapeO : Option Int)
    (stf : FmtTime) (city cid : String) (idx : Nat) (s : String) :
    hourlyRecord offO scrapeO stf city cid idx s =
      some (hourlyRecordCore offO scrapeO stf city cid idx s) := by
  unfold hourlyRecord
  rw [if_neg (splitComma_ne_nil _)]

theorem hourlyLoop_getElem (offO : Option Int) (scrapeO : Option Int)
    (stf : FmtTime) (city cid : String) :
    ∀ (l : List String) (idx k : Nat),
      (hourlyLoop offO scrapeO stf city cid idx l)[k]? =
        (l[k]?).map (fun s => hourlyRecordCore offO scrapeO stf city cid (idx + k) s) := by
  intro l
  induction l with
  | nil => intro idx k; simp [hourlyLoop]
  | cons s rest ih =>
    intro idx k
    simp only [hourlyLoop, hourlyRecord_eq]
    cases k with
    | zero => simp
    | succ k =>
      simp only [List.getElem?_cons_succ, ih (idx + 1) k]
      have e : idx + 1 + k = idx + (k + 1) := by omega
      simp only [e]

theorem hourlyLoop_length (offO : Option Int) (scrapeO : Option Int)
    (stf : FmtTime) (city cid : String) :
    ∀ (l : List String) (idx : Nat),
      (hourlyLoop offO scrapeO stf city cid idx l).length = l.length := by
  intro l
  induction l with
  | nil => intro idx; simp [hourlyLoop]
  | cons s rest ih =>
    intro idx
    simp only [hourlyLoop, hourlyRecord_eq, List.length_cons, ih (idx + 1)]

theorem inAnyPeriod_iff (periods : List (Int × Int)) (c : Int) :
    inAnyPeriod periods c = true ↔ ∃ p ∈ periods, p.1 ≤ c ∧ c ≤ p.2 := by
  unfold inAnyPeriod
  simp only [List.any_eq_true, decide_eq_true_eq]

theorem hasKeyword_nil : hasKeyword [] = false := by decide

theorem batchLoop_fst (tzMap : String → Option Int)
    (findRanges : String → List TimeMatch) :
    ∀ fs : List FileEntry, (batchLoop tzMap findRanges fs).1 =
      (fs.map (fileRecords tzMap findRanges)).flatten := by
  intro fs
  induction fs with
  | nil => simp [batchLoop]
  | cons f rest ih =>
    simp only [List.map_cons, List.flatten_cons, ← ih]
    cases h : f.content with
    | some inp => simp only [batchLoop, h, fileRecords]
    | none => simp only [batchLoop, h, fileRecords, List.nil_append]

theorem batchLoop_snd (tzMap : String → Option Int)
    (findRanges : String → List TimeMatch) :
    ∀ fs : List FileEntry, (batchLoop tzMap findRanges fs).2 =
      fs.countP (fun f => f.content.isNone) := by
  intro fs
  induction fs with
  | nil => simp [batchLoop]
  | cons f rest ih =>
    simp only [batchLoop, List.countP_cons]
    cases h : f.content with
    | some inp => simp [h, ih]
    | none => simp [h, ih]

theorem insertByName_perm (f : FileEntry) (l : List FileEntry) :
    (insertByName f l).Perm (f :: l) := by
  induction l with
  | nil => exact List.Perm.refl _
  | cons g gs ih =>
    unfold insertByName
    split
    · exact (ih.cons g).trans (List.Perm.swap f g gs)
    · exact List.Perm.refl _

theorem sortByName_perm (fs : List FileEntry) : (sortByName fs).Perm fs := by
  induction fs with
  | nil => exact List.Perm.refl _
  | cons f rest ih => exact (insertByName_perm f (sortByName rest)).trans (ih.cons f)

theorem parse_eq_bar (tzMap : String → Option Int)
    (findRanges : String → List TimeMatch) (inp : NowcastInput)
    (hd : inp.dtype = some "nowcast") (hp : inp.points ≠ []) :
    parse_nowcast_data tzMap findRanges inp =
      inp.points.map (pointRecord (tzMap inp.city_id) inp.scrapeO
        (scrapeFmt (tzMap inp.city_id) inp.scrapeO) inp.city inp.city_id) := by
  unfold parse_nowcast_data
  rw [hd]
  dsimp only
  rw [if_pos ⟨rfl, hp⟩]

theorem parse_eq_fallback (tzMap : String → Option Int)
    (findRanges : String → List TimeMatch) (inp : NowcastInput)
    (fb : FallbackData) (hd : inp.dtype = some "nowcast")
    (hp : inp.points = []) (hf : inp.fallback = some fb) :
    parse_nowcast_data tzMap findRanges inp =
      fallbackRecords (tzMap inp.city_id) findRanges inp.scrapeO
        (scrapeFmt (tzMap inp.city_id) inp.scrapeO) inp.city inp.city_id fb := by
  unfold parse_nowcast_data
  rw [hd]
  dsimp only
  rw [if_neg (by simp [hp]), if_pos ⟨rfl, by simp [hf]⟩, hf]
  rfl

theorem parse_eq_hourly (tzMap : String → Option Int)
    (findRanges : String → List TimeMatch) (inp : NowcastInput)
    (l : List String) (hd : inp.dtype = some "hourly")
    (hl : inp.hourly_data = some l) (hne : l ≠ []) :
    parse_nowcast_data tzMap findRanges inp =
      hourlyLoop (tzMap inp.city_id) inp.scrapeO
        (scrapeFmt (tzMap inp.city_id) inp.scrapeO) inp.city inp.city_id 0 l := by
  unfold parse_nowcast_data
  rw [hd]
  dsimp only
  rw [if_neg (by simp), if_neg (by simp), if_pos ⟨rfl, by simp [hl, hne]⟩, hl]
  rfl

theorem bar_pairs (offO : Option Int) (stf : FmtTime) (city cid : String)
    (points : List PointRow) (s : Int)
    (hmi : ∀ k (h : k < points.length),
      ((points.get ⟨k, h⟩).minute_index.getD 0) = (k : Int))
    (k : Nat) (r r' : NormalizedRecord)
    (hk : (points.map (pointRecord offO (some s) stf city cid))[k]? = some r)
    (hk' : (points.map (pointRecord offO (some s) stf city cid))[k + 1]? = some r') :
    r'.leadtime = r.leadtime + 2 ∧
    ∃ m m', r.valid_time = .time m ∧ r'.valid_time = .time m' ∧ m ≤ m' := by
  rw [List.getElem?_map] at hk hk'
  cases hp : points[k]? with
  | none => rw [hp] at hk; exact absurd hk (by simp)
  | some p =>
  cases hp' : points[k + 1]? with
  | none => rw [hp'] at hk'; exact absurd hk' (by simp)
  | some p' =>
  rw [hp] at hk
  rw [hp'] at hk'
  simp only [Option.map_some'] at hk hk'
  obtain ⟨hlt, hpe⟩ := List.getElem?_eq_some.mp hp
  obtain ⟨hlt', hpe'⟩ := List.getElem?_eq_some.mp hp'
  injection hk with hk
  injection hk' with hk'
  subst hk hk'
  have hmi1 : p.minute_index.getD 0 = (k : Int) := by
    have h0 := hmi k hlt
    rwa [List.get_eq_getElem, hpe] at h0
  have hmi2 : p'.minute_index.getD 0 = (k : Int) + 1 := by
    have h0 := hmi (k + 1) hlt'
    rw [List.get_eq_getElem, hpe'] at h0
    rw [h0]
    push_cast
    ring
  have key : alignEven (s + 60 * (((k : Int) + 1) * 2)) =
      alignEven (s + 60 * ((k : Int) * 2)) + 120 := by
    have e : s + 60 * (((k : Int) + 1) * 2) = s + 60 * ((k : Int) * 2) + 120 := by ring
    rw [e, alignEven_add_120]
  constructor
  · simp only [pointRecord, hmi1, hmi2]
    ring
  · simp only [pointRecord, hmi1, hmi2, key]
    cases offO with
    | none =>
      simp only [fmtHM]
      refine ⟨_, _, rfl, rfl, ?_⟩
      omega
    | some off =>
      simp only [fmtHM, toLocal]
      refine ⟨_, _, rfl, rfl, ?_⟩
      omega

theorem walk_pairs (offO : Option Int) (stf : FmtTime) (city cid : String)
    (periods : List (Int × Int)) (scrape maxEnd : Int)
    (k : Nat) (r r' : NormalizedRecord)
    (hk : (walkFrom offO stf city cid periods scrape maxEnd scrape)[k]? = some r)
    (hk' : (walkFrom offO stf city cid periods scrape maxEnd scrape)[k + 1]? = some r') :
    r'.leadtime = r.leadtime + 2 ∧
    ∃ m m', r.valid_time = .time m ∧ r'.valid_time = .time m' ∧ m ≤ m' := by
  have hlen := walkFrom_length offO stf city cid periods scrape maxEnd
    (numSteps scrape maxEnd) scrape rfl
  have hlt : k < numSteps scrape maxEnd := by
    have h0 : k < (walkFrom offO stf city cid periods scrape maxEnd scrape).length :=
      (List.getElem?_eq_some.mp hk).1
    omega
  have hlt' : k + 1 < numSteps scrape maxEnd := by
    have h0 : k + 1 < (walkFrom offO stf city cid periods scrape maxEnd scrape).length :=
      (List.getElem?_eq_some.mp hk').1
    omega
  rw [walkFrom_getElem offO stf city cid periods scrape maxEnd
    (numSteps scrape maxEnd) scrape rfl k hlt] at hk
  rw [walkFrom_getElem offO stf city cid periods scrape maxEnd
    (numSteps scrape maxEnd) scrape rfl (k + 1) hlt'] at hk'
  injection hk with hk
  injection hk' with hk'
  subst hk hk'
  have key : alignEven (scrape + 120 * ((k : Int) + 1)) =
      alignEven (scrape + 120 * (k : Int)) + 120 := by
    have e : scrape + 120 * ((k : Int) + 1) = scrape + 120 * (k : Int) + 120 := by ring
    rw [e, alignEven_add_120]
  have kcast : ((k + 1 : Nat) : Int) = (k : Int) + 1 := by push_cast; ring
  constructor
  · simp only [cursorRecord, kcast]
    omega
  · simp only [cursorRecord, kcast, key]
    cases offO with
    | none =>
      simp only [fmtHM]
      refine ⟨_, _, rfl, rfl, ?_⟩
      omega
    | some off =>
      simp only [fmtHM, toLocal]
      have key2 : alignEven (scrape + 120 * ((k : Int) + 1) + 60 * off) =
          alignEven (scrape + 120 * (k : Int) + 60 * off) + 120 := by
        have e : scrape + 120 * ((k : Int) + 1) + 60 * off =
            scrape + 120 * (k : Int) + 60 * off + 120 := by ring
        rw [e, alignEven_add_120]
      rw [key2]
      refine ⟨_, _, rfl, rfl, ?_⟩
      omega

theorem hourly_pairs (offO : Option Int) (stf : FmtTime) (city cid : String)
    (l : List String) (s : Int)
    (k : Nat) (r r' : NormalizedRecord)
    (hk : (hourlyLoop offO (some s) stf city cid 0 l)[k]? = some r)
    (hk' : (hourlyLoop offO (some s) stf city cid 0 l)[k + 1]? = some r') :
    r'.leadtime = r.leadtime + 1 ∧
    ∃ m m', r.valid_time = .time m ∧ r'.valid_time = .time m' ∧ m ≤ m' := by
  rw [hourlyLoop_getElem offO (some s) stf city cid l 0 k] at hk
  rw [hourlyLoop_getElem offO (some s) stf city cid l 0 (k + 1)] at hk'
  cases hp : l[k]? with
  | none => rw [hp] at hk; exact absurd hk (by simp)
  | some str =>
  cases hp' : l[k + 1]? with
  | none => rw [hp'] at hk'; exact absurd hk' (by simp)
  | some str' =>
  rw [hp] at hk
  rw [hp'] at hk'
  simp only [Option.map_some'] at hk hk'
  injection hk with hk
  injection hk' with hk'
  subst hk hk'
  have kcast : ((k + 1 : Nat) : Int) = (k : Int) + 1 := by push_cast; ring
  constructor
  · simp only [hourlyRecordCore]
    omega
  · simp only [hourlyRecordCore]
    cases offO with
    | none =>
      simp only [fmtHM, floorHour, Nat.zero_add, kcast]
      refine ⟨_, _, rfl, rfl, ?_⟩
      have e1 : s + 3600 * ((k : Int) + 1) = s + 3600 * (k : Int) + 3600 := by ring
      rw [e1]
      omega
    | some off =>
      simp only [fmtHM, floorHour, toLocal, Nat.zero_add, kcast]
      refine ⟨_, _, rfl, rfl, ?_⟩
      have e1 : s + 3600 * ((k : Int) + 1) = s + 3600 * (k : Int) + 3600 := by ring
      rw [e1]
      omega

theorem parse_none (tzMap : String → Option Int)
    (findRanges : String → List TimeMatch) (inp : NowcastInput)
    (hd : inp.dtype = none) : parse_nowcast_data tzMap findRanges inp = [] := by
  unfold parse_nowcast_data
  rw [hd]

theorem parse_eq_else (tzMap : String → Option Int)
    (findRanges : String → List TimeMatch) (inp : NowcastInput) (dt : String)
    (hd : inp.dtype = some dt)
    (h1 : ¬(dt = "nowcast" ∧ inp.points ≠ []))
    (h2 : ¬(dt = "nowcast" ∧ inp.fallback ≠ none))
    (h3 : ¬(dt = "hourly" ∧ inp.hourly_data.getD [] ≠ [])) :
    parse_nowcast_data tzMap findRanges inp = [] := by
  unfold parse_nowcast_data
  rw [hd]
  dsimp only
  rw [if_neg h1, if_neg h2, if_neg h3]

theorem fallbackRecords_dense (offO : Option Int)
    (findRanges : String → List TimeMatch) (s : Int) (stf : FmtTime)
    (city cid : String) (fb : FallbackData) (a : Int × Int) (t : List (Int × Int))
    (hkw : hasKeyword (combinedText fb) = true)
    (hpd : (findRanges fb.div2_text).map (mkPeriod offO s) = a :: t) :
    fallbackRecords offO findRanges (some s) stf city cid fb =
      walkFrom offO stf city cid (a :: t) s (maxEndOf (a :: t)) s := by
  unfold fallbackRecords
  dsimp only
  rw [hkw, if_pos rfl, hpd]

theorem fallbackRecords_no_keyword (offO : Option Int)
    (findRanges : String → List TimeMatch) (s : Int) (stf : FmtTime)
    (city cid : String) (fb : FallbackData)
    (hkw : hasKeyword (combinedText fb) = false) :
    fallbackRecords offO findRanges (some s) stf city cid fb = [] := by
  unfold fallbackRecords
  dsimp only
  rw [hkw]
  simp

/-! ### The claims -/

/-- C5: for every FreeText time-range match that carries no explicit end
clock time, the derived PrecipPeriod satisfies end = start + 6 hours
exactly; the equality is preserved by the day-rollover adjustments
(including the case where the start precedes the scrape time), with or
without a known timezone. -/
theorem C5_open_range_six_hours (offO : Option Int) (s : Int) (m : TimeMatch)
    (hend : m.endTime = none) :
    (mkPeriod offO s m).2 = (mkPeriod offO s m).1 + 6 * 3600 := by
  unfold mkPeriod
  cases offO with
  | none =>
    rw [hend]
    unfold toLocal toUTC replaceHM
    dsimp only
    split_ifs <;> omega
  | some off =>
    rw [hend]
    unfold toLocal toUTC replaceHM
    dsimp only
    split_ifs <;> omega

/-- Witness for C5: an open-ended match starting at 12:00 AM with a UTC-only
station yields a period ending exactly 6 hours after its start. -/
theorem C5_witness :
    c5match.endTime = none ∧
    (mkPeriod none 0 c5match).2 = (mkPeriod none 0 c5match).1 + 6 * 3600 :=
  ⟨rfl, C5_open_range_six_hours none 0 c5match rfl⟩

/-- C7: for every BarChart row, precip = 1 iff the height string parses as a
number strictly greater than 0; every record's precip is 0 or 1 (the parse
failure path yields 0, never an error — `heightPrecip` is a total
function). -/
theorem C7_height_precip (tzMap : String → Option Int)
    (findRanges : String → List TimeMatch) (inp : NowcastInput)
    (hd : inp.dtype = some "nowcast") (hp : inp.points ≠ [])
    (k : Nat) (h : k < inp.points.length) :
    ∃ r, (parse_nowcast_data tzMap findRanges inp)[k]? = some r ∧
      (r.precip = 1 ↔
        ∃ q, parseFloat ((inp.points.get ⟨k, h⟩).height.getD "0") = some q ∧ 0 < q) ∧
      (r.precip = 0 ∨ r.precip = 1) := by
  rw [parse_eq_bar tzMap findRanges inp hd hp, List.getElem?_map,
    List.getElem?_eq_getElem h, Option.map_some']
  refine ⟨_, rfl, ?_, ?_⟩
  · simp only [pointRecord, heightPrecip, List.get_eq_getElem]
    cases hpf : parseFloat ((inp.points[k]).height.getD "0") with
    | none => simp [hpf]
    | some v =>
      by_cases hv : 0 < v
      · simp [hpf, hv]
      · simp [hpf, hv]
  · simp only [pointRecord, heightPrecip]
    cases parseFloat ((inp.points[k]).height.getD "0") with
    | none => simp
    | some v =>
      by_cases hv : 0 < v
      · simp [hv]
      · simp [hv]

/-- Witness for C7: a bar row with height "2.5" is precipitating. -/
theorem C7_witness :
    c7winput.dtype = some "nowcast" ∧ c7winput.points ≠ [] ∧
    0 < c7winput.points.length ∧
    (∃ r, (parse_nowcast_data tzNoneMap noRanges c7winput)[0]? = some r ∧
      (r.precip = 1 ↔
        ∃ q, parseFloat ((c7winput.points.get ⟨0, by decide⟩).height.getD "0") =
          some q ∧ 0 < q) ∧
      (r.precip = 0 ∨ r.precip = 1)) :=
  ⟨rfl, by decide, by decide,
   C7_height_precip tzNoneMap noRanges c7winput rfl (by decide) 0 (by decide)⟩

/-- C9: if zero records result across the whole batch, the merger reports
the "no data" outcome and writes no output table. -/
theorem C9_empty_batch (tzMap : String → Option Int)
    (findRanges : String → List TimeMatch) (fs : List FileEntry)
    (hzero : (parse_all_jsons_to_csv tzMap findRanges fs).records = []) :
    (parse_all_jsons_to_csv tzMap findRanges fs).noData = true ∧
    (parse_all_jsons_to_csv tzMap findRanges fs).output = none := by
  unfold parse_all_jsons_to_csv at hzero ⊢
  dsimp only at hzero ⊢
  rw [hzero]
  simp

/-- Witness for C9: the empty directory produces zero records, the no-data
report, and no output file. -/
theorem C9_witness :
    (parse_all_jsons_to_csv tzNoneMap noRanges []).records = [] ∧
    ((parse_all_jsons_to_csv tzNoneMap noRanges []).noData = true ∧
     (parse_all_jsons_to_csv tzNoneMap noRanges []).output = none) :=
  ⟨rfl, C9_empty_batch tzNoneMap noRanges [] rfl⟩

/-- C10: a FreeText artifact whose scrape_time is missing or unparseable
(`scrapeO = none`) yields zero records, no matter what the texts contain —
both the dense series and the degraded single-point record require a
parseable scrape_time. -/
theorem C10_unparseable_scrape (tzMap : String → Option Int)
    (findRanges : String → List TimeMatch) (inp : NowcastInput)
    (fb : FallbackData) (hd : inp.dtype = some "nowcast")
    (hp : inp.points = []) (hf : inp.fallback = some fb)
    (hs : inp.scrapeO = none) :
    parse_nowcast_data tzMap findRanges inp = [] := by
  rw [parse_eq_fallback tzMap findRanges inp fb hd hp hf]
  unfold fallbackRecords
  rw [hs]

/-- Witness for C10: a FreeText artifact full of precipitation keywords and
a matching time-range phrase, but no parseable scrape time, yields zero
records. -/
theorem C10_witness :
    c10winput.dtype = some "nowcast" ∧ c10winput.points = [] ∧
    c10winput.fallback =
      some { div1_text := "Heavy rain", div2_text := "from 7:00 AM to 9:30 AM" } ∧
    c10winput.scrapeO = none ∧
    hasKeyword (combinedText
      { div1_text := "Heavy rain", div2_text := "from 7:00 AM to 9:30 AM" }) = true ∧
    c3oracle "from 7:00 AM to 9:30 AM" ≠ [] ∧
    parse_nowcast_data tzNoneMap c3oracle c10winput = [] :=
  ⟨rfl, rfl, rfl, rfl, by decide, by decide,
   C10_unparseable_scrape tzNoneMap c3oracle c10winput _ rfl rfl rfl rfl⟩

/-- C2: for every HourlyList input, one record is emitted per list entry in
index order; the record at 0-based index k has leadtime k — recorded in
hours per the source's "Keep in hours" comment, i.e. a lead of 60·k minutes
(index 0 yields leadtime 0) — and an entry with fewer than 3
comma-separated parts still emits a record, with precip = 0. -/
theorem C2_hourly_records (tzMap : String → Option Int)
    (findRanges : String → List TimeMatch) (inp : NowcastInput)
    (l : List String) (hd : inp.dtype = some "hourly")
    (hl : inp.hourly_data = some l) (hne : l ≠ []) :
    (parse_nowcast_data tzMap findRanges inp).length = l.length ∧
    ∀ k (h : k < l.length),
      ∃ r, (parse_nowcast_data tzMap findRanges inp)[k]? = some r ∧
        r.leadtime = (k : Int) ∧
        ((splitComma (l.get ⟨k, h⟩).data).length < 3 → r.precip = 0) := by
  rw [parse_eq_hourly tzMap findRanges inp l hd hl hne]
  constructor
  · exact hourlyLoop_length _ _ _ _ _ l 0
  · intro k h
    rw [hourlyLoop_getElem _ _ _ _ _ l 0 k, List.getElem?_eq_getElem h,
      Option.map_some']
    refine ⟨_, rfl, ?_, ?_⟩
    · simp only [hourlyRecordCore]
      norm_num
    · intro hshort
      simp only [List.get_eq_getElem, Fin.val_mk] at hshort
      simp only [hourlyRecordCore,
        if_neg (by omega : ¬ 2 < (splitComma (l[k]).data).length)]
      simp [lowerL, hasKeyword_nil]

/-- Witness for C2: a 2-entry hourly list whose second entry "6 PM" has a
single comma-separated part; its record has leadtime 1 and precip 0. -/
theorem C2_witness :
    c2winput.dtype = some "hourly" ∧
    c2winput.hourly_data = some ["Now,64,Cloudy", "6 PM"] ∧
    (["Now,64,Cloudy", "6 PM"] : List String) ≠ [] ∧
    (splitComma ("6 PM" : String).data).length < 3 ∧
    ((parse_nowcast_data tzNoneMap noRanges c2winput).length =
        (["Now,64,Cloudy", "6 PM"] : List String).length ∧
      ∀ k (h : k < (["Now,64,Cloudy", "6 PM"] : List String).length),
        ∃ r, (parse_nowcast_data tzNoneMap noRanges c2winput)[k]? = some r ∧
          r.leadtime = (k : Int) ∧
          ((splitComma ((["Now,64,Cloudy", "6 PM"] : List String).get ⟨k, h⟩).data).length < 3 →
            r.precip = 0)) :=
  ⟨rfl, rfl, by decide, by decide,
   C2_hourly_records tzNoneMap noRanges c2winput _ rfl rfl (by decide)⟩

/-- C6: a FreeText artifact with a parseable scrape time, zero time-range
matches, and a precipitation keyword in the combined text emits exactly one
record: leadtime 0, precip 1, valid_time equal to the formatted scrape
time. -/
theorem C6_degraded_single (tzMap : String → Option Int)
    (findRanges : String → List TimeMatch) (inp : NowcastInput)
    (fb : FallbackData) (s : Int)
    (hd : inp.dtype = some "nowcast") (hp : inp.points = [])
    (hf : inp.fallback = some fb) (hs : inp.scrapeO = some s)
    (hkw : hasKeyword (combinedText fb) = true)
    (hr : findRanges fb.div2_text = []) :
    parse_nowcast_data tzMap findRanges inp =
      [{ city := inp.city, city_id := inp.city_id, rtype := "nowcast",
         scrape_time := scrapeFmt (tzMap inp.city_id) (some s),
         valid_time := scrapeFmt (tzMap inp.city_id) (some s),
         leadtime := 0, precip := 1 }] := by
  rw [parse_eq_fallback tzMap findRanges inp fb hd hp hf]
  unfold fallbackRecords
  rw [hs]
  dsimp only
  rw [hkw, hr]
  simp

/-- Witness for C6: "Light rain" with no time range yields the single
degraded record. -/
theorem C6_witness :
    c6winput.dtype = some "nowcast" ∧ c6winput.points = [] ∧
    c6winput.fallback = some { div1_text := "Light rain", div2_text := "soon" } ∧
    c6winput.scrapeO = some 0 ∧
    hasKeyword (combinedText { div1_text := "Light rain", div2_text := "soon" }) = true ∧
    noRanges "soon" = [] ∧
    parse_nowcast_data tzNoneMap noRanges c6winput =
      [{ city := c6winput.city, city_id := c6winput.city_id, rtype := "nowcast",
         scrape_time := scrapeFmt (tzNoneMap c6winput.city_id) (some 0),
         valid_time := scrapeFmt (tzNoneMap c6winput.city_id) (some 0),
         leadtime := 0, precip := 1 }] :=
  ⟨rfl, rfl, rfl, rfl, by decide, rfl,
   C6_degraded_single tzNoneMap noRanges c6winput _ 0 rfl rfl rfl rfl (by decide) rfl⟩

/-- C8: a batch containing exactly one corrupt artifact file is not
aborted: the skip count is 1 and the accumulated records are exactly the
concatenation, in file-name sort order, of the records of the remaining
(valid) files. -/
theorem C8_batch_isolation (tzMap : String → Option Int)
    (findRanges : String → List TimeMatch) (fs : List FileEntry)
    (hone : fs.countP (fun f => f.content.isNone) = 1) :
    (parse_all_jsons_to_csv tzMap findRanges fs).skipped = 1 ∧
    (parse_all_jsons_to_csv tzMap findRanges fs).records =
      ((sortByName fs).map (fileRecords tzMap findRanges)).flatten := by
  unfold parse_all_jsons_to_csv
  dsimp only
  refine ⟨?_, ?_⟩
  · rw [batchLoop_snd, (sortByName_perm fs).countP_eq]
    exact hone
  · exact batchLoop_fst tzMap findRanges (sortByName fs)

/-- Witness for C8: a directory with one corrupt file ("nowcast_a.json")
and one valid hourly artifact ("nowcast_b.json"). -/
theorem C8_witness :
    c8files.countP (fun f => f.content.isNone) = 1 ∧
    ((parse_all_jsons_to_csv tzNoneMap noRanges c8files).skipped = 1 ∧
     (parse_all_jsons_to_csv tzNoneMap noRanges c8files).records =
       ((sortByName c8files).map (fileRecords tzNoneMap noRanges)).flatten) :=
  ⟨by decide, C8_batch_isolation tzNoneMap noRanges c8files (by decide)⟩

/-- C1 counterexample: at station offset +5:45 (345 minutes, not a whole
multiple of 2 minutes) and a scrape time with odd UTC minute, the only
emitted bar-chart record formats with local minute 45 — odd — because the
source aligns once in UTC before the timezone conversion and never
re-aligns afterwards; this refutes the claim that the minute component of
every formatted local valid_time is even. -/
theorem C1_counterexample :
    minuteOf 60 = 1 ∧
    tz345Map c1input.city_id = some 345 ∧
    (parse_nowcast_data tz345Map noRanges c1input).map
      (fun r => fmtMinuteOf r.valid_time) = [45] ∧
    ¬ (∀ r ∈ parse_nowcast_data tz345Map noRanges c1input,
        (fmtMinuteOf r.valid_time) % 2 = 0) := by
  decide

/-- C1 (amended): with a known station timezone and parseable scrape time,
each bar-chart record's valid_time equals align_even(scrape_time +
2·minute_index minutes) converted to station-local time with NO
re-alignment after the conversion; consequently the formatted local minute
is even whenever the offset is a whole (even) number of minutes that is a
multiple of 2 — in particular for 30-minute-offset timezones — but can be
odd for offsets with an odd minute count (see the counterexample). -/
theorem C1_amended (tzMap : String → Option Int)
    (findRanges : String → List TimeMatch) (inp : NowcastInput)
    (off s : Int) (htz : tzMap inp.city_id = some off)
    (hs : inp.scrapeO = some s) (hd : inp.dtype = some "nowcast")
    (hp : inp.points ≠ []) :
    ∀ k (h : k < inp.points.length),
      ∃ r, (parse_nowcast_data tzMap findRanges inp)[k]? = some r ∧
        r.valid_time = .time ((toLocal off (alignEven
          (s + 120 * ((inp.points.get ⟨k, h⟩).minute_index.getD 0)))) / 60) ∧
        (off % 2 = 0 → (fmtMinuteOf r.valid_time) % 2 = 0) := by
  intro k h
  rw [parse_eq_bar tzMap findRanges inp hd hp, htz, hs, List.getElem?_map,
    List.getElem?_eq_getElem h, Option.map_some']
  refine ⟨_, rfl, ?_, ?_⟩
  · simp only [pointRecord, fmtHM, List.get_eq_getElem, Fin.val_mk]
    have e : s + 60 * ((inp.points[k]).minute_index.getD 0 * 2) =
        s + 120 * ((inp.points[k]).minute_index.getD 0) := by ring
    rw [e]
  · intro hoff
    simp only [pointRecord, fmtHM, fmtMinuteOf]
    have hpar := minuteOf_alignEven_even (s + 60 * ((inp.points[k]).minute_index.getD 0 * 2))
    unfold minuteOf at hpar
    unfold toLocal
    rw [emod60_emod2] at hpar ⊢
    generalize alignEven (s + 60 * ((inp.points[k]).minute_index.getD 0 * 2)) = v at hpar ⊢
    have e2 : (v + 60 * off) / 60 = v / 60 + off := by omega
    rw [e2]
    generalize v / 60 = q at hpar ⊢
    omega

/-- Witness for the amended C1: offset +5:30 (330 minutes, even), odd-minute
scrape time; the formatted local minute is even. -/
theorem C1_amended_witness :
    tz330Map c1winput.city_id = some 330 ∧ c1winput.scrapeO = some 60 ∧
    c1winput.dtype = some "nowcast" ∧ c1winput.points ≠ [] ∧
    minuteOf 60 = 1 ∧ (330 : Int) % 2 = 0 ∧ 0 < c1winput.points.length ∧
    (∃ r, (parse_nowcast_data tz330Map noRanges c1winput)[0]? = some r ∧
      r.valid_time = .time ((toLocal 330 (alignEven
        (60 + 120 * ((c1winput.points.get ⟨0, by decide⟩).minute_index.getD 0)))) / 60) ∧
      ((330 : Int) % 2 = 0 → (fmtMinuteOf r.valid_time) % 2 = 0)) :=
  ⟨rfl, rfl, rfl, by decide, by decide, by decide, by decide,
   C1_amended tz330Map noRanges c1winput 330 60 rfl rfl rfl (by decide) 0 (by decide)⟩

/-- C3 counterexample: the longer text block "from 7:00 AM to 9:30 AM"
matches the time-range pattern once (capture groups given by `c3oracle`)
and the scrape time parses, yet zero records are emitted — the source gates
the entire FreeText branch on a precipitation keyword before scanning for
ranges, while the claim (which demands the dense series whether or not any
keyword occurs — here 286 records) requires at least one record. -/
theorem C3_counterexample :
    c3input.scrapeO = some 0 ∧
    c3oracle "from 7:00 AM to 9:30 AM" ≠ [] ∧
    numSteps 0 (maxEndOf ((c3oracle "from 7:00 AM to 9:30 AM").map
      (mkPeriod (tzNoneMap c3input.city_id) 0))) = 286 ∧
    parse_nowcast_data tzNoneMap c3oracle c3input = [] := by
  refine ⟨rfl, by decide, by decide, by decide⟩

/-- C3 (amended): for a FreeText input with parseable scrape_time whose
longer text block matches the time-range pattern at least once AND whose
combined text contains a precipitation keyword, the normalizer emits one
record per 2-minute UTC step from scrape_time to the latest period end
inclusive (numSteps many), the k-th record having leadtime =
(cursor − scrape_time) in whole minutes = 2·k, and precip = 1 exactly when
the cursor falls inclusively within some parsed PrecipPeriod. -/
theorem C3_dense_walk (tzMap : String → Option Int)
    (findRanges : String → List TimeMatch) (inp : NowcastInput)
    (fb : FallbackData) (s : Int)
    (hd : inp.dtype = some "nowcast") (hp : inp.points = [])
    (hf : inp.fallback = some fb) (hs : inp.scrapeO = some s)
    (hkw : hasKeyword (combinedText fb) = true)
    (hr : findRanges fb.div2_text ≠ []) :
    (parse_nowcast_data tzMap findRanges inp).length =
      numSteps s (maxEndOf ((findRanges fb.div2_text).map
        (mkPeriod (tzMap inp.city_id) s))) ∧
    ∀ (k : Nat) (r : NormalizedRecord),
      (parse_nowcast_data tzMap findRanges inp)[k]? = some r →
      r.leadtime = 2 * (k : Int) ∧
      (r.precip = 1 ↔
        ∃ p ∈ (findRanges fb.div2_text).map (mkPeriod (tzMap inp.city_id) s),
          p.1 ≤ s + 120 * k ∧ s + 120 * k ≤ p.2) := by
  obtain ⟨a, t, hpd⟩ : ∃ a t,
      (findRanges fb.div2_text).map (mkPeriod (tzMap inp.city_id) s) = a :: t := by
    cases hpd : (findRanges fb.div2_text).map (mkPeriod (tzMap inp.city_id) s) with
    | nil => exact absurd (List.map_eq_nil_iff.mp hpd) hr
    | cons a t => exact ⟨a, t, rfl⟩
  rw [parse_eq_fallback tzMap findRanges inp fb hd hp hf, hs,
    fallbackRecords_dense (tzMap inp.city_id) findRanges s _ _ _ fb a t hkw hpd,
    hpd]
  constructor
  · exact walkFrom_length _ _ _ _ (a :: t) s (maxEndOf (a :: t)) _ s rfl
  · intro k r hk
    have hlen := walkFrom_length (tzMap inp.city_id)
      (scrapeFmt (tzMap inp.city_id) (some s)) inp.city inp.city_id (a :: t) s
      (maxEndOf (a :: t)) (numSteps s (maxEndOf (a :: t))) s rfl
    have hlt : k < numSteps s (maxEndOf (a :: t)) := by
      have h0 := (List.getElem?_eq_some.mp hk).1
      omega
    rw [walkFrom_getElem (tzMap inp.city_id)
      (scrapeFmt (tzMap inp.city_id) (some s)) inp.city inp.city_id (a :: t) s
      (maxEndOf (a :: t)) (numSteps s (maxEndOf (a :: t))) s rfl k hlt] at hk
    injection hk with hk
    subst hk
    constructor
    · simp only [cursorRecord]
      have e : s + 120 * (k : Int) - s = 120 * (k : Int) := by ring
      rw [e]
      omega
    · simp only [cursorRecord]
      by_cases hb : inAnyPeriod (a :: t) (s + 120 * (k : Int)) = true
      · rw [if_pos hb]
        constructor
        · intro _
          exact (inAnyPeriod_iff (a :: t) (s + 120 * (k : Int))).mp hb
        · intro _
          rfl
      · rw [if_neg hb]
        constructor
        · intro h01
          exact absurd h01 (by norm_num)
        · intro hex
          exact absurd ((inAnyPeriod_iff (a :: t) (s + 120 * (k : Int))).mpr hex) hb

/-- Witness for the amended C3: "rain" in the short block plus one short
range (12:02 AM to 12:04 AM) at a UTC-only station produces the 3-step
dense series. -/
theorem C3_witness :
    c3winput.dtype = some "nowcast" ∧ c3winput.points = [] ∧
    c3winput.fallback = some { div1_text := "rain", div2_text := "w" } ∧
    c3winput.scrapeO = some 0 ∧
    hasKeyword (combinedText { div1_text := "rain", div2_text := "w" }) = true ∧
    c3woracle "w" ≠ [] ∧
    ((parse_nowcast_data tzNoneMap c3woracle c3winput).length =
      numSteps 0 (maxEndOf ((c3woracle "w").map
        (mkPeriod (tzNoneMap c3winput.city_id) 0))) ∧
    ∀ (k : Nat) (r : NormalizedRecord),
      (parse_nowcast_data tzNoneMap c3woracle c3winput)[k]? = some r →
      r.leadtime = 2 * (k : Int) ∧
      (r.precip = 1 ↔
        ∃ p ∈ (c3woracle "w").map (mkPeriod (tzNoneMap c3winput.city_id) 0),
          p.1 ≤ 0 + 120 * k ∧ 0 + 120 * k ≤ p.2)) :=
  ⟨rfl, rfl, rfl, rfl, by decide, by decide,
   C3_dense_walk tzNoneMap c3woracle c3winput _ 0 rfl rfl rfl rfl (by decide) (by decide)⟩

/-- C4: for every record sequence derived from one well-formed artifact
(parseable scrape time, and bar-chart rows carrying minute_index equal to
their position — which is how the extractor writes them), valid_time is
monotonically non-decreasing in emission order, and between consecutive
records leadtime strictly increases by the source's native step: 2
(minutes) for bar-chart- and free-text-derived series, 1 (hour, i.e. 60
minutes, the leadtime column being recorded in hours for the hourly
series) for hourly-derived series. -/
theorem C4_monotone (tzMap : String → Option Int)
    (findRanges : String → List TimeMatch) (inp : NowcastInput) (s : Int)
    (hs : inp.scrapeO = some s)
    (hmi : ∀ k (h : k < inp.points.length),
      ((inp.points.get ⟨k, h⟩).minute_index.getD 0) = (k : Int)) :
    ∀ (k : Nat) (r r' : NormalizedRecord),
      (parse_nowcast_data tzMap findRanges inp)[k]? = some r →
      (parse_nowcast_data tzMap findRanges inp)[k + 1]? = some r' →
      r'.leadtime = r.leadtime + (if inp.dtype = some "hourly" then 1 else 2) ∧
      ∃ m m', r.valid_time = .time m ∧ r'.valid_time = .time m' ∧ m ≤ m' := by
  intro k r r' hk hk'
  cases hdt : inp.dtype with
  | none =>
    rw [parse_none tzMap findRanges inp hdt] at hk
    exact absurd hk (by simp)
  | some dt =>
    by_cases h1 : dt = "nowcast" ∧ inp.points ≠ []
    · have hd : inp.dtype = some "nowcast" := by rw [hdt, h1.1]
      rw [parse_eq_bar tzMap findRanges inp hd h1.2, hs] at hk hk'
      have hstep : (if (some dt : Option String) = some "hourly" then (1 : Int) else 2) = 2 := by
        rw [h1.1]
        simp
      rw [hstep]
      exact bar_pairs (tzMap inp.city_id) _ inp.city inp.city_id inp.points s
        hmi k r r' hk hk'
    · by_cases h2 : dt = "nowcast" ∧ inp.fallback ≠ none
      · have hd : inp.dtype = some "nowcast" := by rw [hdt, h2.1]
        obtain ⟨fb, hfb⟩ := Option.ne_none_iff_exists'.mp h2.2
        have hpts : inp.points = [] := by
          by_contra hcon
          exact h1 ⟨h2.1, hcon⟩
        rw [parse_eq_fallback tzMap findRanges inp fb hd hpts hfb, hs] at hk hk'
        have hstep : (if (some dt : Option String) = some "hourly" then (1 : Int) else 2) = 2 := by
          rw [h2.1]
          simp
        rw [hstep]
        cases hkw : hasKeyword (combinedText fb) with
        | false =>
          rw [fallbackRecords_no_keyword _ _ _ _ _ _ fb hkw] at hk
          exact absurd hk (by simp)
        | true =>
          cases hpd : (findRanges fb.div2_text).map (mkPeriod (tzMap inp.city_id) s) with
          | nil =>
            have hone : fallbackRecords (tzMap inp.city_id) findRanges (some s)
                (scrapeFmt (tzMap inp.city_id) (some s)) inp.city inp.city_id fb =
                [{ city := inp.city, city_id := inp.city_id, rtype := "nowcast",
                   scrape_time := scrapeFmt (tzMap inp.city_id) (some s),
                   valid_time := scrapeFmt (tzMap inp.city_id) (some s),
                   leadtime := 0, precip := 1 }] := by
              unfold fallbackRecords
              dsimp only
              rw [hkw, if_pos rfl, hpd]
            rw [hone, List.getElem?_cons_succ] at hk'
            simp at hk' 
          | cons a t =>
            rw [fallbackRecords_dense (tzMap inp.city_id) findRanges s _ _ _ fb a t
              hkw hpd] at hk hk'
            exact walk_pairs (tzMap inp.city_id) _ inp.city inp.city_id (a :: t) s
              (maxEndOf (a :: t)) k r r' hk hk'
      · by_cases h3 : dt = "hourly" ∧ inp.hourly_data.getD [] ≠ []
        · have hd : inp.dtype = some "hourly" := by rw [hdt, h3.1]
          obtain ⟨l, hl⟩ : ∃ l, inp.hourly_data = some l := by
            cases hh : inp.hourly_data with
            | none => exact absurd h3.2 (by rw [hh]; simp)
            | some l => exact ⟨l, rfl⟩
          have hne : l ≠ [] := by
            have h0 := h3.2
            rw [hl] at h0
            simpa using h0
          rw [parse_eq_hourly tzMap findRanges inp l hd hl hne, hs] at hk hk'
          have hstep : (if (some dt : Option String) = some "hourly" then (1 : Int) else 2) = 1 := by
            rw [h3.1]
            simp
          rw [hstep]
          exact hourly_pairs (tzMap inp.city_id) _ inp.city inp.city_id l s
            k r r' hk hk'
        · rw [parse_eq_else tzMap findRanges inp dt hdt h1 h2 h3] at hk
          exact absurd hk (by simp)

/-- Witness for C4: the two-entry hourly artifact; consecutive leadtimes
differ by 1 (hour) and the valid times are non-decreasing. -/
theorem C4_witness :
    c4winput.scrapeO = some 0 ∧
    (∀ k (h : k < c4winput.points.length),
      ((c4winput.points.get ⟨k, h⟩).minute_index.getD 0) = (k : Int)) ∧
    (parse_nowcast_data tzNoneMap noRanges c4winput)[0]? = some c4rec0 ∧
    (parse_nowcast_data tzNoneMap noRanges c4winput)[1]? = some c4rec1 ∧
    (c4rec1.leadtime = c4rec0.leadtime +
        (if c4winput.dtype = some "hourly" then 1 else 2) ∧
      ∃ m m', c4rec0.valid_time = .time m ∧ c4rec1.valid_time = .time m' ∧ m ≤ m') :=
  ⟨rfl, by decide, by decide, by decide,
   C4_monotone tzNoneMap noRanges c4winput 0 rfl (by decide) 0 c4rec0 c4rec1
     (by decide) (by decide)⟩

end Nowcast
